import Mathlib

/-!
Shallow embedding of the MODUK accordion components
(`src/components/Accordion.tsx` and `src/components/Accordion2.tsx`).

The embedding keeps the browser-visible state the components manipulate:
the in-memory set of expanded section ids (a JS `Set<string>`, modelled as
a `Finset String`) and the window session storage (a string-keyed
key-value store, modelled as `String → Option String`).  Rendered markup
is modelled only where the claims talk about it: the per-section heading
(static span vs. interactive button), the show-all controls, and the
`hidden="until-found"` / `beforematch` wiring installed by the section
effect.  Headings and contents are opaque React children and play no role
in the state logic, so items are reduced to their `id` and
`defaultExpanded` fields.
-/

namespace Moduk

/-- Browser session storage: `getItem` returns `null` (`none`) for absent
keys, `setItem` overwrites pointwise. -/
def Storage : Type := String → Option String

def Storage.getItem (s : Storage) (key : String) : Option String := s key

def Storage.setItem (s : Storage) (key value : String) : Storage :=
  fun k => if k = key then some value else s k

/-- The empty session storage (no key present). -/
def Storage.empty : Storage := fun _ => none

/-- An accordion section as configured by the caller: the `id` prop and the
optional `defaultExpanded` prop (`none` models an absent/undefined prop;
JS truthiness of the prop is `Option.getD false`).  The `heading` /
`content` children do not influence the state logic and are omitted. -/
structure AccordionItem where
  id : String
  defaultExpanded : Option Bool
deriving DecidableEq, Repr

/-- The session-storage key used for a section,
`` `moduk.accordion.${id}.expanded` ``. -/
def storageKey (id : String) : String :=
  "moduk.accordion." ++ id ++ ".expanded"

/-- The component-visible state: the in-memory `expandedSectionIds` React
state plus the session storage the component reads and writes. -/
structure AccordionState where
  expandedSectionIds : Finset String
  storage : Storage

/-- `Accordion`'s initial `useState` value: `new Set()`. -/
def accordionInitialExpandedIds : Finset String := ∅

/-- `Accordion2`'s initial `useState` value: the ids of the (valid)
children whose `defaultExpanded` prop is truthy. -/
def accordion2InitialExpandedIds (children : List AccordionItem) : Finset String :=
  ((children.filter (fun child => child.defaultExpanded.getD false)).map
    (fun child => child.id)).toFinset

/-- The set computed by `Accordion`'s first-mount reconciliation effect:
keep an item if its storage flag is present and equals `"1"`, or the flag
is absent and `defaultExpanded` is truthy. -/
def reconcileExpandedIds (items : List AccordionItem) (storage : Storage) :
    Finset String :=
  ((items.filter (fun item =>
      match storage.getItem (storageKey item.id) with
      | some sessionState => sessionState == "1"
      | none => item.defaultExpanded.getD false)).map
    (fun item => item.id)).toFinset

/-- The set computed by `Accordion2`'s first-mount reconciliation effect
(same formula over the valid children's props). -/
def reconcile2ExpandedIds (children : List AccordionItem) (storage : Storage) :
    Finset String :=
  ((children.filter (fun child =>
      match storage.getItem (storageKey child.id) with
      | some sessionState => sessionState == "1"
      | none => child.defaultExpanded.getD false)).map
    (fun child => child.id)).toFinset

/-- `Accordion`'s `saveSectionExpandedState`: write `"1"`/`"0"` under the
section's storage key. -/
def saveSectionExpandedState (storage : Storage) (sectionId : String)
    (expanded : Bool) : Storage :=
  storage.setItem (storageKey sectionId) (if expanded then "1" else "0")

/-- `Accordion`'s `saveAllSectionExpandedState`: write the flag for every
item, in list order. -/
def saveAllSectionExpandedState (items : List AccordionItem) (storage : Storage)
    (expanded : Bool) : Storage :=
  items.foldl
    (fun st item => st.setItem (storageKey item.id) (if expanded then "1" else "0"))
    storage

/-- `Accordion`'s `allExpanded`: every item's id is in the expanded set. -/
def allExpanded (items : List AccordionItem) (expandedSectionIds : Finset String) :
    Bool :=
  items.all (fun item => decide (item.id ∈ expandedSectionIds))

/-- `Accordion`'s `handleShowAllClick`. -/
def handleShowAllClick (items : List AccordionItem) (st : AccordionState) :
    AccordionState :=
  if allExpanded items st.expandedSectionIds then
    { expandedSectionIds := ∅
      storage := saveAllSectionExpandedState items st.storage false }
  else
    { expandedSectionIds := (items.map (fun item => item.id)).toFinset
      storage := saveAllSectionExpandedState items st.storage true }

/-- `Accordion`'s `setSectionExpandedState`: persist the flag, then add or
delete the id in the in-memory set. -/
def setSectionExpandedState (st : AccordionState) (id : String) (expanded : Bool) :
    AccordionState :=
  { expandedSectionIds :=
      if expanded then insert id st.expandedSectionIds
      else st.expandedSectionIds.erase id
    storage := saveSectionExpandedState st.storage id expanded }

/-- `Accordion2`'s `saveAllSectionExpandedState` (over the valid children). -/
def saveAllSectionExpandedState2 (children : List AccordionItem) (storage : Storage)
    (expanded : Bool) : Storage :=
  children.foldl
    (fun st child => st.setItem (storageKey child.id) (if expanded then "1" else "0"))
    storage

/-- `Accordion2`'s `allExpanded`. -/
def allExpanded2 (children : List AccordionItem)
    (expandedSectionIds : Finset String) : Bool :=
  children.all (fun child => decide (child.id ∈ expandedSectionIds))

/-- `Accordion2`'s `handleShowAllClick` (it saves before updating the set;
on the pure state the result is the same record). -/
def handleShowAllClick2 (children : List AccordionItem) (st : AccordionState) :
    AccordionState :=
  if allExpanded2 children st.expandedSectionIds then
    { expandedSectionIds := ∅
      storage := saveAllSectionExpandedState2 children st.storage false }
  else
    { expandedSectionIds := (children.map (fun child => child.id)).toFinset
      storage := saveAllSectionExpandedState2 children st.storage true }

/-- `Accordion2`'s `setSectionState`. -/
def setSectionState (st : AccordionState) (sectionId : String) (expanded : Bool) :
    AccordionState :=
  { expandedSectionIds :=
      if expanded then insert sectionId st.expandedSectionIds
      else st.expandedSectionIds.erase sectionId
    storage := saveSectionExpandedState st.storage sectionId expanded }

/-- The `beforematch` handler installed by a collapsed section: force the
section open (`setSectionExpandedState(item.id, true)`). -/
def handleBeforeMatch (st : AccordionState) (id : String) : AccordionState :=
  setSectionExpandedState st id true

/-- User-visible events a mounted accordion can receive. -/
inductive AccordionEvent where
  | toggle (id : String) (expanded : Bool)
  | showAll
  | beforeMatch (id : String)
deriving DecidableEq, Repr

/-- One lifecycle step of `Accordion` after mount. -/
def accordionStep (items : List AccordionItem) (st : AccordionState) :
    AccordionEvent → AccordionState
  | .toggle id expanded => setSectionExpandedState st id expanded
  | .showAll => handleShowAllClick items st
  | .beforeMatch id => handleBeforeMatch st id

/-- One lifecycle step of `Accordion2` after mount. -/
def accordion2Step (children : List AccordionItem) (st : AccordionState) :
    AccordionEvent → AccordionState
  | .toggle id expanded => setSectionState st id expanded
  | .showAll => handleShowAllClick2 children st
  | .beforeMatch id => setSectionState st id true

/-- Run `Accordion` from a state through a sequence of events. -/
def accordionRun (items : List AccordionItem) (st : AccordionState)
    (events : List AccordionEvent) : AccordionState :=
  events.foldl (accordionStep items) st

/-- Run `Accordion2` from a state through a sequence of events. -/
def accordion2Run (children : List AccordionItem) (st : AccordionState)
    (events : List AccordionEvent) : AccordionState :=
  events.foldl (accordion2Step children) st

/-- Component states reachable over a fixed section list and initial
session storage: the two initial `useState` values, first-mount
reconciliation from the current storage, per-section toggles and
`beforematch` events for sections that are actually rendered (members of
the section list), and show-all clicks. -/
inductive AccordionReachable (items : List AccordionItem) (storage0 : Storage) :
    AccordionState → Prop where
  | init :
      AccordionReachable items storage0 ⟨accordionInitialExpandedIds, storage0⟩
  | init2 :
      AccordionReachable items storage0
        ⟨accordion2InitialExpandedIds items, storage0⟩
  | reconciled (st : AccordionState) :
      AccordionReachable items storage0 st →
      AccordionReachable items storage0
        ⟨reconcileExpandedIds items st.storage, st.storage⟩
  | toggle (st : AccordionState) (item : AccordionItem) (expanded : Bool) :
      item ∈ items → AccordionReachable items storage0 st →
      AccordionReachable items storage0
        (setSectionExpandedState st item.id expanded)
  | beforeMatch (st : AccordionState) (item : AccordionItem) :
      item ∈ items → AccordionReachable items storage0 st →
      AccordionReachable items storage0 (handleBeforeMatch st item.id)
  | showAll (st : AccordionState) :
      AccordionReachable items storage0 st →
      AccordionReachable items storage0 (handleShowAllClick items st)

/-! Render model: only the pieces the claims talk about. -/

/-- What `AccordionHeadingButton` renders: a static span (pre-hydration) or
an interactive button carrying `aria-expanded` and the toggle label. -/
inductive HeadingRender where
  | staticSpan (headingId : String)
  | toggleButton (ariaExpanded : Bool) (toggleLabel : String)
deriving DecidableEq, Repr

/-- `AccordionHeadingButton` (same body in both source files): static span
when not hydrated, otherwise a button with `aria-expanded={expanded}` and
label `expanded ? "Hide" : "Show"`. -/
def accordionHeadingButton (hydrated expanded : Bool) (headingId : String) :
    HeadingRender :=
  if !hydrated then HeadingRender.staticSpan headingId
  else HeadingRender.toggleButton expanded (if expanded then "Hide" else "Show")

/-- The heading rendered for one section of `Accordion`: the call site
passes `expandedSectionIds.has(item.id)` and the heading id
`` `${item.id}-heading` ``. -/
def accordionSectionHeading (expandedSectionIds : Finset String) (hydrated : Bool)
    (item : AccordionItem) : HeadingRender :=
  accordionHeadingButton hydrated (decide (item.id ∈ expandedSectionIds))
    (item.id ++ "-heading")

/-- The show-all button: `aria-expanded` and its text. -/
structure ShowAllButton where
  ariaExpanded : Bool
  label : String
deriving DecidableEq, Repr

/-- `Accordion`'s `AccordionControls`: renders nothing until hydrated, then
the show-all button with `aria-expanded={expanded}`. -/
def accordionControls (hydrated expanded : Bool) : Option ShowAllButton :=
  if !hydrated then none
  else some { ariaExpanded := expanded
              label := (if expanded then "Hide" else "Show") ++ " all sections" }

/-- `Accordion2`'s controls slot: the component renders
`hydrated && <AccordionControls expanded={allExpanded} .../>`. -/
def accordion2ControlsSlot (hydrated expanded : Bool) : Option ShowAllButton :=
  if hydrated then
    some { ariaExpanded := expanded
           label := (if expanded then "Hide" else "Show") ++ " all sections" }
  else none

/-- What the section-content `useEffect` leaves on the content element:
the `hidden` attribute value and whether a `beforematch` listener is
attached. -/
structure SectionContentWiring where
  hiddenAttribute : Option String
  beforematchListener : Bool
deriving DecidableEq, Repr

/-- The section-content effect (same body in both source files): an
expanded section has `hidden` removed and no listener; a collapsed one
gets `hidden="until-found"` and a `beforematch` listener. -/
def accordionSectionEffect (expanded : Bool) : SectionContentWiring :=
  if expanded then { hiddenAttribute := none, beforematchListener := false }
  else { hiddenAttribute := some "until-found", beforematchListener := true }

/-! Helper lemmas about the embedded operations. -/

theorem Storage.getItem_setItem_self (s : Storage) (key value : String) :
    (s.setItem key value).getItem key = some value := by
  simp [Storage.getItem, Storage.setItem]

theorem Storage.getItem_setItem_ne (s : Storage) {k key : String} (h : k ≠ key)
    (value : String) : (s.setItem key value).getItem k = s.getItem k := by
  simp [Storage.getItem, Storage.setItem, h]

/-- The storage keys of distinct section ids are distinct. -/
theorem storageKey_inj {a b : String} (h : storageKey a = storageKey b) : a = b := by
  unfold storageKey at h
  have hd := congrArg String.data h
  simp only [String.data_append] at hd
  exact String.ext (List.append_cancel_left (List.append_cancel_right hd))

/-- Membership in the reconciled set, for sections with pairwise-distinct
ids: a section is reconciled as expanded exactly when its flag is `"1"`,
or the flag is absent and `defaultExpanded` is truthy. -/
theorem mem_reconcileExpandedIds_iff {items : List AccordionItem}
    (hnd : (items.map (fun item => item.id)).Nodup) {item : AccordionItem}
    (hmem : item ∈ items) (storage : Storage) :
    item.id ∈ reconcileExpandedIds items storage ↔
      storage.getItem (storageKey item.id) = some "1" ∨
        (storage.getItem (storageKey item.id) = none ∧
          item.defaultExpanded.getD false = true) := by
  unfold reconcileExpandedIds
  rw [List.mem_toFinset, List.mem_map]
  constructor
  · rintro ⟨item', hmem', hid⟩
    rw [List.mem_filter] at hmem'
    obtain ⟨hitems', hcond⟩ := hmem'
    have heq : item' = item := List.inj_on_of_nodup_map hnd hitems' hmem hid
    subst heq
    cases hget : storage.getItem (storageKey item'.id) with
    | none =>
      rw [hget] at hcond
      exact Or.inr ⟨rfl, hcond⟩
    | some sessionState =>
      rw [hget] at hcond
      simp only [beq_iff_eq] at hcond
      exact Or.inl (by rw [hcond])
  · intro h
    refine ⟨item, ?_, rfl⟩
    rw [List.mem_filter]
    refine ⟨hmem, ?_⟩
    rcases h with h1 | ⟨hn, hd⟩
    · rw [h1]
      simp
    · rw [hn]
      exact hd

theorem saveAllSectionExpandedState_cons (hd : AccordionItem)
    (tl : List AccordionItem) (storage : Storage) (e : Bool) :
    saveAllSectionExpandedState (hd :: tl) storage e =
      saveAllSectionExpandedState tl
        (storage.setItem (storageKey hd.id) (if e then "1" else "0")) e := rfl

/-- Writing the same value for every item preserves a key already holding
that value. -/
theorem saveAll_getItem_preserved (items : List AccordionItem) (e : Bool)
    {storage : Storage} {k : String}
    (h : storage.getItem k = some (if e then "1" else "0")) :
    (saveAllSectionExpandedState items storage e).getItem k =
      some (if e then "1" else "0") := by
  induction items generalizing storage with
  | nil => exact h
  | cons hd tl ih =>
    rw [saveAllSectionExpandedState_cons]
    apply ih
    by_cases hk : k = storageKey hd.id
    · subst hk
      simp [Storage.getItem, Storage.setItem]
    · rw [Storage.getItem_setItem_ne _ hk]
      exact h

/-- After `saveAllSectionExpandedState`, every item's flag holds the
written value. -/
theorem saveAll_getItem_mem {items : List AccordionItem} {item : AccordionItem}
    (hmem : item ∈ items) (storage : Storage) (e : Bool) :
    (saveAllSectionExpandedState items storage e).getItem (storageKey item.id) =
      some (if e then "1" else "0") := by
  induction items generalizing storage with
  | nil => cases hmem
  | cons hd tl ih =>
    rw [saveAllSectionExpandedState_cons]
    rcases List.mem_cons.mp hmem with heq | htl
    · subst heq
      exact saveAll_getItem_preserved tl e (Storage.getItem_setItem_self _ _ _)
    · exact ih htl _

/-! Claim theorems. -/

/-- C1 counterexample: the claim includes the initial server render among
the points where the two components' expanded-section-id sets agree, but
for a single section with `defaultExpanded = true` the initial `useState`
values already differ: `Accordion` starts from the empty set while
`Accordion2` starts from the set containing that section's id. -/
theorem c1_initial_sets_differ :
    accordionInitialExpandedIds ≠
      accordion2InitialExpandedIds [⟨"s1", some true⟩] := by
  decide

/-- C1 (amended): from first-mount reconciliation onward the two
components implement the same interaction model: starting from their
respective reconciled states over the same sections and storage, any
sequence of toggles, show-all clicks and beforematch events leaves the
two components with equal expanded-section-id sets and identical storage
(the initial pre-reconciliation states, however, differ as in the
counterexample). -/
theorem c1_equivalent_from_reconciliation (items : List AccordionItem)
    (storage : Storage) (events : List AccordionEvent) :
    accordionRun items ⟨reconcileExpandedIds items storage, storage⟩ events =
      accordion2Run items ⟨reconcile2ExpandedIds items storage, storage⟩ events := by
  have hrec : reconcile2ExpandedIds items storage = reconcileExpandedIds items storage :=
    rfl
  rw [hrec]
  have hstep : ∀ (st : AccordionState) (ev : AccordionEvent),
      accordion2Step items st ev = accordionStep items st ev := by
    intro st ev
    cases ev <;> rfl
  suffices h : ∀ st0 : AccordionState,
      accordionRun items st0 events = accordion2Run items st0 events from h _
  intro st0
  induction events generalizing st0 with
  | nil => rfl
  | cons ev evs ih =>
    show accordionRun items (accordionStep items st0 ev) evs =
      accordion2Run items (accordion2Step items st0 ev) evs
    rw [hstep, ih]

/-- C2: on first interactive mount, a section with pairwise-distinct ids is
reconciled as expanded exactly when its storage flag is present and equals
`"1"`, or the flag is absent and its `defaultExpanded` hint is truthy; in
particular any present flag overrides the hint.  `Accordion2`'s
reconciliation computes the same set. -/
theorem c2_reconcile_from_storage_flags {items : List AccordionItem}
    (hnd : (items.map (fun item => item.id)).Nodup) {item : AccordionItem}
    (hmem : item ∈ items) (storage : Storage) :
    reconcile2ExpandedIds items storage = reconcileExpandedIds items storage ∧
      (item.id ∈ reconcileExpandedIds items storage ↔
        storage.getItem (storageKey item.id) = some "1" ∨
          (storage.getItem (storageKey item.id) = none ∧
            item.defaultExpanded.getD false = true)) :=
  ⟨rfl, mem_reconcileExpandedIds_iff hnd hmem storage⟩

/-- C2 witness: one section with `defaultExpanded = true` whose stored flag
is `"0"`; the flag overrides the hint. -/
theorem c2_witness :
    reconcile2ExpandedIds [⟨"a", some true⟩]
        (Storage.empty.setItem (storageKey "a") "0") =
      reconcileExpandedIds [⟨"a", some true⟩]
        (Storage.empty.setItem (storageKey "a") "0") ∧
      ("a" ∈ reconcileExpandedIds [⟨"a", some true⟩]
          (Storage.empty.setItem (storageKey "a") "0") ↔
        (Storage.empty.setItem (storageKey "a") "0").getItem (storageKey "a") =
            some "1" ∨
          ((Storage.empty.setItem (storageKey "a") "0").getItem (storageKey "a") =
              none ∧
            (some true).getD false = true)) :=
  @c2_reconcile_from_storage_flags [⟨"a", some true⟩] (by decide)
    ⟨"a", some true⟩ (by decide) (Storage.empty.setItem (storageKey "a") "0")

/-- C3: toggling a section updates both stores consistently: afterwards the
id is in the in-memory set exactly when the new state is `true`, and the
section's storage flag holds `"1"` for `true` and `"0"` for `false`;
`Accordion2`'s `setSectionState` is the same operation. -/
theorem c3_toggle_updates_state_and_storage (st : AccordionState) (id : String)
    (e : Bool) :
    setSectionState st id e = setSectionExpandedState st id e ∧
      (id ∈ (setSectionExpandedState st id e).expandedSectionIds ↔ e = true) ∧
      (setSectionExpandedState st id e).storage.getItem (storageKey id) =
        some (if e then "1" else "0") := by
  refine ⟨rfl, ?_, ?_⟩
  · cases e <;> simp [setSectionExpandedState]
  · cases e <;> simp [setSectionExpandedState, saveSectionExpandedState,
      Storage.getItem, Storage.setItem]

/-- C4: persistence across reload: after a toggle writes the flag, a fresh
mount's reconciliation over the resulting storage expands the section
exactly when the toggle set it to `true`, whatever its `defaultExpanded`
hint. -/
theorem c4_persistence_across_reload {items : List AccordionItem}
    (hnd : (items.map (fun item => item.id)).Nodup) {item : AccordionItem}
    (hmem : item ∈ items) (st : AccordionState) (e : Bool) :
    item.id ∈ reconcileExpandedIds items
        (setSectionExpandedState st item.id e).storage ↔ e = true := by
  rw [mem_reconcileExpandedIds_iff hnd hmem]
  cases e <;> simp [setSectionExpandedState, saveSectionExpandedState,
    Storage.getItem, Storage.setItem]

/-- C4 witness: a section with `defaultExpanded = false` toggled to
expanded survives the reload as expanded. -/
theorem c4_witness :
    "a" ∈ reconcileExpandedIds [⟨"a", some false⟩]
        (setSectionExpandedState ⟨∅, Storage.empty⟩ "a" true).storage ↔
      true = true :=
  @c4_persistence_across_reload [⟨"a", some false⟩] (by decide)
    ⟨"a", some false⟩ (by decide) ⟨∅, Storage.empty⟩ true

/-- C5: rendering is gated on hydration: before hydration the heading is a
static span and neither component renders the show-all controls; once
hydrated the heading is a toggle button whose `aria-expanded` is the
section's membership in the expanded set, and the controls render with
`aria-expanded` equal to `allExpanded`. -/
theorem c5_hydration_gated_rendering (expandedSectionIds : Finset String)
    (item : AccordionItem) (allExp : Bool) :
    accordionSectionHeading expandedSectionIds false item =
        HeadingRender.staticSpan (item.id ++ "-heading") ∧
      accordionControls false allExp = none ∧
      accordion2ControlsSlot false allExp = none ∧
      accordionSectionHeading expandedSectionIds true item =
        HeadingRender.toggleButton (decide (item.id ∈ expandedSectionIds))
          (if decide (item.id ∈ expandedSectionIds) then "Hide" else "Show") ∧
      accordionControls true allExp =
        some ⟨allExp, (if allExp then "Hide" else "Show") ++ " all sections"⟩ ∧
      accordion2ControlsSlot true allExp =
        some ⟨allExp, (if allExp then "Hide" else "Show") ++ " all sections"⟩ :=
  ⟨rfl, rfl, rfl, rfl, rfl, rfl⟩

/-- C6: a collapsed section gets `hidden="until-found"` and a `beforematch`
listener, an expanded one gets neither, and the handler forces the section
open: afterwards its id is in the expanded set and its storage flag is
`"1"`. -/
theorem c6_beforematch_forces_open (st : AccordionState) (id : String) :
    (accordionSectionEffect false).beforematchListener = true ∧
      (accordionSectionEffect false).hiddenAttribute = some "until-found" ∧
      (accordionSectionEffect true).beforematchListener = false ∧
      id ∈ (handleBeforeMatch st id).expandedSectionIds ∧
      (handleBeforeMatch st id).storage.getItem (storageKey id) = some "1" := by
  refine ⟨rfl, rfl, rfl, ?_, ?_⟩
  · simp [handleBeforeMatch, setSectionExpandedState]
  · simp [handleBeforeMatch, setSectionExpandedState, saveSectionExpandedState,
      Storage.getItem, Storage.setItem]

/-- C7: toggling one section is frame-preserving: a distinct section's
membership in the expanded set and its storage flag are unchanged
(`Accordion2`'s `setSectionState` is the same operation). -/
theorem c7_toggle_frame (st : AccordionState) {id1 id2 : String}
    (h : id1 ≠ id2) (e : Bool) :
    ((id2 ∈ (setSectionExpandedState st id1 e).expandedSectionIds) ↔
        id2 ∈ st.expandedSectionIds) ∧
      (setSectionExpandedState st id1 e).storage.getItem (storageKey id2) =
        st.storage.getItem (storageKey id2) ∧
      setSectionState st id1 e = setSectionExpandedState st id1 e := by
  have hkey : storageKey id2 ≠ storageKey id1 := fun hk => h (storageKey_inj hk).symm
  refine ⟨?_, ?_, rfl⟩
  · cases e with
    | true => simp [setSectionExpandedState, Finset.mem_insert, Ne.symm h]
    | false => simp [setSectionExpandedState, Finset.mem_erase, Ne.symm h]
  · show (st.storage.setItem (storageKey id1) (if e then "1" else "0")).getItem
        (storageKey id2) = st.storage.getItem (storageKey id2)
    exact Storage.getItem_setItem_ne st.storage hkey _

/-- C7 witness: toggling section "a" open leaves section "b"'s state and
flag untouched. -/
theorem c7_witness :
    (("b" ∈ (setSectionExpandedState (AccordionState.mk ∅ Storage.empty) "a"
            true).expandedSectionIds) ↔
        "b" ∈ (AccordionState.mk ∅ Storage.empty).expandedSectionIds) ∧
      (setSectionExpandedState (AccordionState.mk ∅ Storage.empty) "a"
            true).storage.getItem (storageKey "b") =
        (AccordionState.mk ∅ Storage.empty).storage.getItem (storageKey "b") ∧
      setSectionState (AccordionState.mk ∅ Storage.empty) "a" true =
        setSectionExpandedState (AccordionState.mk ∅ Storage.empty) "a" true :=
  @c7_toggle_frame (AccordionState.mk ∅ Storage.empty) "a" "b" (by decide) true

/-- C8: the show-all click toggles globally: when every section is
expanded it empties the set and writes `"0"` for every section, otherwise
it expands every section's id and writes `"1"` for every section
(`Accordion2`'s handler produces the same state). -/
theorem c8_show_all_click {items : List AccordionItem} (st : AccordionState)
    {item : AccordionItem} (hmem : item ∈ items) :
    (handleShowAllClick items st).expandedSectionIds =
        (if allExpanded items st.expandedSectionIds then ∅
          else (items.map (fun i => i.id)).toFinset) ∧
      (handleShowAllClick items st).storage.getItem (storageKey item.id) =
        some (if allExpanded items st.expandedSectionIds then "0" else "1") ∧
      handleShowAllClick2 items st = handleShowAllClick items st := by
  refine ⟨?_, ?_, rfl⟩
  · unfold handleShowAllClick
    cases hall : allExpanded items st.expandedSectionIds <;> simp [hall]
  · unfold handleShowAllClick
    cases hall : allExpanded items st.expandedSectionIds with
    | false =>
      simp only [hall, Bool.false_eq_true, if_false]
      simpa using saveAll_getItem_mem hmem st.storage true
    | true =>
      simp only [hall, if_true]
      simpa using saveAll_getItem_mem hmem st.storage false

/-- C8 witness: a single collapsed section; the click expands it and
writes `"1"`. -/
theorem c8_witness :
    (handleShowAllClick [⟨"a", none⟩]
          (AccordionState.mk ∅ Storage.empty)).expandedSectionIds =
        (if allExpanded [⟨"a", none⟩]
            (AccordionState.mk ∅ Storage.empty).expandedSectionIds then ∅
          else (([⟨"a", none⟩] : List AccordionItem).map
            (fun i => i.id)).toFinset) ∧
      (handleShowAllClick [⟨"a", none⟩]
            (AccordionState.mk ∅ Storage.empty)).storage.getItem
          (storageKey "a") =
        some (if allExpanded [⟨"a", none⟩]
            (AccordionState.mk ∅ Storage.empty).expandedSectionIds
          then "0" else "1") ∧
      handleShowAllClick2 [⟨"a", none⟩] (AccordionState.mk ∅ Storage.empty) =
        handleShowAllClick [⟨"a", none⟩] (AccordionState.mk ∅ Storage.empty) :=
  @c8_show_all_click [⟨"a", none⟩] (AccordionState.mk ∅ Storage.empty)
    ⟨"a", none⟩ (by decide)

/-- C9: with zero sections `allExpanded` is vacuously true, the hydrated
show-all control reads as the hide-all state, and a click leaves both the
(empty) expanded set and the storage unchanged, in either component. -/
theorem c9_empty_accordion (s : Finset String) (storage : Storage) :
    allExpanded [] s = true ∧
      allExpanded2 [] s = true ∧
      accordionControls true (allExpanded [] s) =
        some ⟨true, "Hide all sections"⟩ ∧
      handleShowAllClick [] ⟨∅, storage⟩ = ⟨∅, storage⟩ ∧
      handleShowAllClick2 [] ⟨∅, storage⟩ = ⟨∅, storage⟩ :=
  ⟨rfl, rfl, rfl, rfl, rfl⟩

/-- Mapping the ids of a filtered section list lands inside the ids of the
full list. -/
theorem filter_map_id_subset (p : AccordionItem → Bool)
    (items : List AccordionItem) :
    ((items.filter p).map (fun item => item.id)).toFinset ⊆
      (items.map (fun item => item.id)).toFinset := by
  intro x hx
  rw [List.mem_toFinset, List.mem_map] at hx ⊢
  obtain ⟨item, hmem, hid⟩ := hx
  exact ⟨item, List.mem_of_mem_filter hmem, hid⟩

/-- C10: subset invariant: in every reachable component state the
in-memory expanded-section-id set is a subset of the ids of the supplied
sections. -/
theorem c10_expanded_subset_of_ids {items : List AccordionItem}
    {storage0 : Storage} {st : AccordionState}
    (h : AccordionReachable items storage0 st) :
    st.expandedSectionIds ⊆ (items.map (fun item => item.id)).toFinset := by
  induction h with
  | init => exact Finset.empty_subset _
  | init2 => exact filter_map_id_subset _ items
  | reconciled st _ _ => exact filter_map_id_subset _ items
  | toggle st item e hmem _ ih =>
    cases e with
    | true =>
      show insert item.id st.expandedSectionIds ⊆ _
      refine Finset.insert_subset ?_ ih
      rw [List.mem_toFinset, List.mem_map]
      exact ⟨item, hmem, rfl⟩
    | false =>
      show st.expandedSectionIds.erase item.id ⊆ _
      exact (Finset.erase_subset _ _).trans ih
  | beforeMatch st item hmem _ ih =>
    show insert item.id st.expandedSectionIds ⊆ _
    refine Finset.insert_subset ?_ ih
    rw [List.mem_toFinset, List.mem_map]
    exact ⟨item, hmem, rfl⟩
  | showAll st _ _ =>
    by_cases hall : allExpanded items st.expandedSectionIds = true
    · simp only [handleShowAllClick, hall, if_true]
      exact Finset.empty_subset _
    · simp only [handleShowAllClick, if_neg hall]
      exact Finset.Subset.refl _

/-- C10 witness: a reachable state after toggling the only section open. -/
theorem c10_witness :
    (setSectionExpandedState
        (AccordionState.mk accordionInitialExpandedIds Storage.empty) "s1"
        true).expandedSectionIds ⊆
      (([⟨"s1", some true⟩] : List AccordionItem).map
        (fun item => item.id)).toFinset :=
  @c10_expanded_subset_of_ids [⟨"s1", some true⟩] Storage.empty _
    (AccordionReachable.toggle _ ⟨"s1", some true⟩ true (by decide)
      AccordionReachable.init)

end Moduk
